import Mathlib

/-!
Shallow embedding of the Game of Life core of `portable-text-of-life.tsx`:
the document model (blocks with inline cell objects), the grid extraction
performed by the `custom.tick` behavior guard, the neighbor counting of
`countLiveNeighbors`, the per-cell transition and diff emission of the tick
guard, and the `/reset/` input rule.
-/

/-- The `cell` inline object: `{_type: 'cell', _key, alive}`
(source `CellInlineObject`, lines 75-79). The `_type` tag is encoded by the
`Child.cell` constructor below; `key` is the `_key` string. -/
structure CellInlineObject where
  key : String
  alive : Bool
deriving DecidableEq

/-- A child of a text block: either a cell inline object
(`isCellInlineObject` is true) or any other child such as a text span. -/
inductive Child where
  | cell (node : CellInlineObject)
  | span (key : String)
deriving DecidableEq

/-- A block of the document value: a text block (`isTextBlock` is true) with
its key and children, or any other block. -/
inductive Block where
  | textBlock (key : String) (children : List Child)
  | nonTextBlock (key : String)
deriving DecidableEq

/-- A grid entry as built by the tick guard (lines 344-368): the cell node
together with its path; the path is the pair (block `_key`, child `_key`),
of which the child part is `node.key`. -/
structure GridCell where
  blockKey : String
  node : CellInlineObject
deriving DecidableEq

/-- The 2-D grid the tick guard builds: rows of cells. -/
abbrev Grid := List (List GridCell)

/-- The row of grid entries collected from one text block's children
(lines 353-369): children that are not cells are skipped. -/
def cellEntries (blockKey : String) (children : List Child) : List GridCell :=
  children.filterMap fun child =>
    match child with
    | .cell node => some { blockKey := blockKey, node := node }
    | .span _ => none

/-- Grid extraction of the tick guard (lines 344-374): non-text blocks are
skipped with `continue`, and a row is pushed only if `rowCells.length > 0`. -/
def extractGrid (value : List Block) : Grid :=
  value.filterMap fun block =>
    match block with
    | .textBlock bkey children =>
      let rowCells := cellEntries bkey children
      if rowCells.length > 0 then some rowCells else none
    | .nonTextBlock _ => none

/-- The bounds check and read of `countLiveNeighbors` (lines 443-452):
`newRow >= 0 && newRow < grid.length && newCol >= 0 &&
newCol < grid[newRow].length` and then `grid[newRow][newCol].node.alive`. -/
def boundedAlive (grid : Grid) (r c : Int) : Bool :=
  if 0 ≤ r && r < (grid.length : Int) then
    match grid.get? r.toNat with
    | some rowCells =>
      if 0 ≤ c && c < (rowCells.length : Int) then
        match rowCells.get? c.toNat with
        | some gc => gc.node.alive
        | none => false
      else false
    | none => false
  else false

/-- The iteration space of `countLiveNeighbors` (lines 434-435): offsets
`i` and `j` each ranging over -1, 0, 1. -/
def neighborOffsets : List (Int × Int) :=
  ([-1, 0, 1] : List Int).flatMap fun i =>
    ([-1, 0, 1] : List Int).map fun j => (i, j)

/-- `countLiveNeighbors(grid, row, col)` (lines 426-457): walk the 9 offset
pairs, skip `(0, 0)`, and increment the count when the bounds-checked
neighbor is alive. -/
def countLiveNeighbors (grid : Grid) (row col : Nat) : Nat :=
  neighborOffsets.foldl
    (fun count ij =>
      if ij.1 == 0 && ij.2 == 0 then count
      else
        if boundedAlive grid ((row : Int) + ij.1) ((col : Int) + ij.2) then
          count + 1
        else count)
    0

/-- The `newAlive` computation of the tick guard (lines 393-401): a live
cell keeps `neighbors === 2 || neighbors === 3`; a dead cell gets
`neighbors === 3`. -/
def nextAlive (alive : Bool) (neighbors : Nat) : Bool :=
  if alive then neighbors == 2 || neighbors == 3
  else neighbors == 3

/-- A raised `child.set` action of the tick guard (lines 405-411): the
target path (block key, child key) and the new `alive` value. -/
structure Diff where
  blockKey : String
  childKey : String
  alive : Bool
deriving DecidableEq

/-- The loop body of the tick guard for one cell (lines 386-412): compute
the neighbor count, the new state, and push an action only if the state
changed. -/
def cellUpdate (grid : Grid) (rowIndex cellIndex : Nat) (cell : GridCell) :
    Option Diff :=
  let neighbors := countLiveNeighbors grid rowIndex cellIndex
  let newAlive := nextAlive cell.node.alive neighbors
  if newAlive != cell.node.alive then
    some { blockKey := cell.blockKey, childKey := cell.node.key, alive := newAlive }
  else none

/-- The inner `cellIndex` loop of the tick guard (lines 381-413). -/
def stepRow (grid : Grid) (rowIndex : Nat) : Nat → List GridCell → List Diff
  | _, [] => []
  | cellIndex, cell :: rest =>
    match cellUpdate grid rowIndex cellIndex cell with
    | some d => d :: stepRow grid rowIndex (cellIndex + 1) rest
    | none => stepRow grid rowIndex (cellIndex + 1) rest

/-- The outer `rowIndex` loop of the tick guard (lines 380-414). -/
def stepRows (grid : Grid) : Nat → List (List GridCell) → List Diff
  | _, [] => []
  | rowIndex, row :: rest =>
    stepRow grid rowIndex 0 row ++ stepRows grid (rowIndex + 1) rest

/-- The full list of `child.set` actions computed by one tick over a grid:
the `step` operation of the spec. -/
def stepDiffs (grid : Grid) : List Diff :=
  stepRows grid 0 grid

/-- The tick guard as a whole (lines 342-417): extract the grid, compute
the actions, and fire only when `actions.length > 0` (else return false,
i.e. `none`). -/
def tick (value : List Block) : Option (List Diff) :=
  let actions := stepDiffs (extractGrid value)
  if actions.length > 0 then some actions else none

example :
    stepDiffs [[⟨"b0", "k0", true⟩, ⟨"b0", "k1", true⟩]] =
      [⟨"b0", "k0", false⟩, ⟨"b0", "k1", false⟩] := by decide

/-- The 8 neighbor positions named by the spec, in row-major order:
(r-1,c-1), (r-1,c), (r-1,c+1), (r,c-1), (r,c+1), (r+1,c-1), (r+1,c),
(r+1,c+1). -/
def specNeighborPositions (r c : Int) : List (Int × Int) :=
  [(r - 1, c - 1), (r - 1, c), (r - 1, c + 1),
   (r, c - 1), (r, c + 1),
   (r + 1, c - 1), (r + 1, c), (r + 1, c + 1)]

/-- Spec-side contribution of one absolute position: it contributes 1 iff
its row index is inside `[0, rowCount)`, its column index is inside
`[0, length of that row)`, and the cell there is alive; any out-of-bounds
position contributes 0. -/
def specContributes (grid : Grid) (p : Int × Int) : Bool :=
  decide (0 ≤ p.1 ∧ p.1 < (grid.length : Int)) &&
  (match grid.get? p.1.toNat with
   | none => false
   | some row =>
     decide (0 ≤ p.2 ∧ p.2 < (row.length : Int)) &&
     (match row.get? p.2.toNat with
      | none => false
      | some gc => gc.node.alive))

/-- Spec-side neighbor count: the number of live cells among exactly the 8
surrounding positions. -/
def specNeighborCount (grid : Grid) (r c : Nat) : Nat :=
  ((specNeighborPositions (r : Int) (c : Int)).filter
    (specContributes grid)).length

lemma specContributes_eq_boundedAlive (grid : Grid) (p : Int × Int) :
    specContributes grid p = boundedAlive grid p.1 p.2 := by
  unfold specContributes boundedAlive
  by_cases h1 : (0 ≤ p.1)
  · by_cases h2 : p.1 < (grid.length : Int)
    · cases hrow : grid.get? p.1.toNat with
      | none => simp [h1, h2, hrow]
      | some row =>
        by_cases h3 : (0 ≤ p.2)
        · by_cases h4 : p.2 < (row.length : Int)
          · simp [h1, h2, h3, h4, hrow]
          · simp [h1, h2, h3, h4, hrow]
        · simp [h1, h2, h3, hrow]
    · simp [h1, h2]
  · simp [h1]

lemma length_filter_cons {α : Type} (p : α → Bool) (a : α) (l : List α) :
    ((a :: l).filter p).length =
      (if p a then 1 else 0) + (l.filter p).length := by
  by_cases h : p a
  · simp [List.filter_cons, h, Nat.add_comm]
  · simp [List.filter_cons, h]

lemma foldl_count_filter (grid : Grid) (row col : Nat) :
    ∀ (l : List (Int × Int)) (n : Nat),
      l.foldl
        (fun count ij =>
          if ij.1 == 0 && ij.2 == 0 then count
          else
            if boundedAlive grid ((row : Int) + ij.1) ((col : Int) + ij.2) then
              count + 1
            else count)
        n
      = n + (l.filter fun ij =>
          !(ij.1 == 0 && ij.2 == 0) &&
            boundedAlive grid ((row : Int) + ij.1) ((col : Int) + ij.2)).length := by
  intro l
  induction l with
  | nil => intro n; simp
  | cons a l ih =>
    intro n
    by_cases hc : (a.1 == 0 && a.2 == 0) = true
    · simp only [List.foldl_cons, hc, if_true, List.filter_cons,
        Bool.not_true, Bool.false_and, ih]
      simp [hc]
    · have hc' : (a.1 == 0 && a.2 == 0) = false := by
        cases h : (a.1 == 0 && a.2 == 0) <;> simp_all
      by_cases hq :
          boundedAlive grid ((row : Int) + a.1) ((col : Int) + a.2) = true
      · simp only [List.foldl_cons, hc', if_false, hq, if_true, ih,
          List.filter_cons, Bool.not_false, Bool.true_and,
          Bool.false_eq_true, List.length_cons]
        omega
      · have hq' :
            boundedAlive grid ((row : Int) + a.1) ((col : Int) + a.2) = false := by
          cases h : boundedAlive grid ((row : Int) + a.1) ((col : Int) + a.2) <;>
            simp_all
        simp only [List.foldl_cons, hc', if_false, hq', ih, List.filter_cons,
          Bool.not_false, Bool.true_and, Bool.false_eq_true, if_false]

/-- C2: for every grid (irregular rows included) and every cell position
(r, c), the live-neighbor count used by the tick guard equals the number of
live cells among exactly the 8 surrounding positions, where any position
outside `[0, rowCount)` or outside `[0, length of that row)` contributes 0;
there is no wraparound topology. -/
theorem countLiveNeighbors_spec (grid : Grid) (r c : Nat) :
    countLiveNeighbors grid r c = specNeighborCount grid r c := by
  rw [countLiveNeighbors, foldl_count_filter grid r c neighborOffsets 0]
  have hoff : neighborOffsets =
      [((-1 : Int), (-1 : Int)), (-1, 0), (-1, 1),
       (0, -1), (0, 0), (0, 1),
       (1, -1), (1, 0), (1, 1)] := rfl
  have hA : ((-1 : Int) == 0) = false := rfl
  have hB : ((0 : Int) == 0) = true := rfl
  have hC : ((1 : Int) == 0) = false := rfl
  rw [hoff]
  rw [specNeighborCount, specNeighborPositions]
  simp only [length_filter_cons, List.filter_nil, List.length_nil, hA, hB, hC,
    Bool.and_self, Bool.and_true, Bool.true_and, Bool.false_and,
    Bool.and_false, Bool.not_true, Bool.not_false,
    specContributes_eq_boundedAlive, Int.sub_eq_add_neg, Int.add_zero,
    Bool.false_eq_true, if_false, Nat.zero_add, Nat.add_zero]

/-- The index space of the tick guard's inner loop: each cell of a row
paired with its (rowIndex, cellIndex) position, starting at a given
cellIndex. -/
def enumRowFrom (rowIndex : Nat) : Nat → List GridCell → List (Nat × Nat × GridCell)
  | _, [] => []
  | cellIndex, cell :: rest =>
    (rowIndex, cellIndex, cell) :: enumRowFrom rowIndex (cellIndex + 1) rest

/-- The index space of the tick guard's nested loops: every cell of the
grid paired with its (rowIndex, cellIndex), rows starting at rowIndex. -/
def enumCellsFrom : Nat → List (List GridCell) → List (Nat × Nat × GridCell)
  | _, [] => []
  | rowIndex, row :: rest =>
    enumRowFrom rowIndex 0 row ++ enumCellsFrom (rowIndex + 1) rest

/-- Every cell of the grid with its (rowIndex, cellIndex) position. -/
def enumCells (grid : Grid) : List (Nat × Nat × GridCell) :=
  enumCellsFrom 0 grid

lemma stepRow_eq_filterMap (grid : Grid) (rI : Nat) :
    ∀ (c0 : Nat) (row : List GridCell),
      stepRow grid rI c0 row =
        (enumRowFrom rI c0 row).filterMap fun t => cellUpdate grid t.1 t.2.1 t.2.2 := by
  intro c0 row
  induction row generalizing c0 with
  | nil => simp [stepRow, enumRowFrom]
  | cons cell rest ih =>
    cases h : cellUpdate grid rI c0 cell with
    | some d => simp [stepRow, enumRowFrom, h, List.filterMap_cons, ih]
    | none => simp [stepRow, enumRowFrom, h, List.filterMap_cons, ih]

lemma stepRows_eq_filterMap (grid : Grid) :
    ∀ (r0 : Nat) (rows : List (List GridCell)),
      stepRows grid r0 rows =
        (enumCellsFrom r0 rows).filterMap fun t => cellUpdate grid t.1 t.2.1 t.2.2 := by
  intro r0 rows
  induction rows generalizing r0 with
  | nil => simp [stepRows, enumCellsFrom]
  | cons row rest ih =>
    simp [stepRows, enumCellsFrom, List.filterMap_append, ih,
      stepRow_eq_filterMap]

lemma stepDiffs_eq_filterMap (grid : Grid) :
    stepDiffs grid =
      (enumCells grid).filterMap fun t => cellUpdate grid t.1 t.2.1 t.2.2 :=
  stepRows_eq_filterMap grid 0 grid

lemma mem_enumRowFrom (rI : Nat) :
    ∀ (c0 : Nat) (row : List GridCell) (t : Nat × Nat × GridCell),
      t ∈ enumRowFrom rI c0 row ↔
        ∃ j gc, row.get? j = some gc ∧ t = (rI, c0 + j, gc) := by
  intro c0 row
  induction row generalizing c0 with
  | nil => intro t; simp [enumRowFrom]
  | cons gc rest ih =>
    intro t
    simp only [enumRowFrom, List.mem_cons, ih (c0 + 1)]
    constructor
    · rintro (rfl | ⟨j, gc', hj, rfl⟩)
      · exact ⟨0, gc, rfl, by simp⟩
      · refine ⟨j + 1, gc', by simpa using hj, ?_⟩
        have harith : c0 + 1 + j = c0 + (j + 1) := by omega
        rw [harith]
    · rintro ⟨j, gc', hj, rfl⟩
      cases j with
      | zero =>
        left
        have hgc : gc = gc' := by simpa using hj
        simp [hgc]
      | succ j' =>
        right
        refine ⟨j', gc', by simpa using hj, ?_⟩
        have harith : c0 + (j' + 1) = c0 + 1 + j' := by omega
        rw [harith]

lemma mem_enumCellsFrom :
    ∀ (r0 : Nat) (rows : List (List GridCell)) (t : Nat × Nat × GridCell),
      t ∈ enumCellsFrom r0 rows ↔
        ∃ i row, rows.get? i = some row ∧ t ∈ enumRowFrom (r0 + i) 0 row := by
  intro r0 rows
  induction rows generalizing r0 with
  | nil => intro t; simp [enumCellsFrom]
  | cons row rest ih =>
    intro t
    simp only [enumCellsFrom, List.mem_append, ih (r0 + 1)]
    constructor
    · rintro (h | ⟨i, row', hi, h⟩)
      · exact ⟨0, row, rfl, by simpa using h⟩
      · refine ⟨i + 1, row', by simpa using hi, ?_⟩
        have harith : r0 + 1 + i = r0 + (i + 1) := by omega
        rw [harith] at h
        exact h
    · rintro ⟨i, row', hi, h⟩
      cases i with
      | zero =>
        left
        have hrow : row = row' := by simpa using hi
        subst hrow
        simpa using h
      | succ i' =>
        right
        refine ⟨i', row', by simpa using hi, ?_⟩
        have harith : r0 + (i' + 1) = r0 + 1 + i' := by omega
        rw [harith] at h
        exact h

lemma mem_enumCells (grid : Grid) (t : Nat × Nat × GridCell) :
    t ∈ enumCells grid ↔
      ∃ r c row gc, grid.get? r = some row ∧ row.get? c = some gc ∧
        t = (r, c, gc) := by
  rw [enumCells, mem_enumCellsFrom]
  constructor
  · rintro ⟨i, row, hi, h⟩
    rw [mem_enumRowFrom] at h
    obtain ⟨j, gc, hj, rfl⟩ := h
    exact ⟨0 + i, j, row, gc, by simpa using hi, hj, by simp⟩
  · rintro ⟨r, c, row, gc, hr, hc, rfl⟩
    refine ⟨r, row, hr, ?_⟩
    rw [mem_enumRowFrom]
    exact ⟨c, gc, hc, by simp⟩

lemma mem_stepDiffs (grid : Grid) (d : Diff) :
    d ∈ stepDiffs grid ↔
      ∃ r c row gc, grid.get? r = some row ∧ row.get? c = some gc ∧
        cellUpdate grid r c gc = some d := by
  rw [stepDiffs_eq_filterMap, List.mem_filterMap]
  constructor
  · rintro ⟨t, ht, hupd⟩
    rw [mem_enumCells] at ht
    obtain ⟨r, c, row, gc, hr, hc, rfl⟩ := ht
    exact ⟨r, c, row, gc, hr, hc, hupd⟩
  · rintro ⟨r, c, row, gc, hr, hc, hupd⟩
    refine ⟨(r, c, gc), ?_, hupd⟩
    rw [mem_enumCells]
    exact ⟨r, c, row, gc, hr, hc, rfl⟩

lemma cellUpdate_eq (grid : Grid) (r c : Nat) (cell : GridCell) :
    cellUpdate grid r c cell =
      if nextAlive cell.node.alive (countLiveNeighbors grid r c) ≠ cell.node.alive then
        some { blockKey := cell.blockKey, childKey := cell.node.key,
               alive := nextAlive cell.node.alive (countLiveNeighbors grid r c) }
      else none := by
  unfold cellUpdate
  by_cases h : nextAlive cell.node.alive (countLiveNeighbors grid r c) = cell.node.alive
  · simp [h]
  · simp [h]

lemma cellUpdate_some_iff (grid : Grid) (r c : Nat) (gc : GridCell) (d : Diff) :
    cellUpdate grid r c gc = some d ↔
      (nextAlive gc.node.alive (countLiveNeighbors grid r c) ≠ gc.node.alive ∧
       d = { blockKey := gc.blockKey, childKey := gc.node.key,
             alive := nextAlive gc.node.alive (countLiveNeighbors grid r c) }) := by
  rw [cellUpdate_eq]
  by_cases h : nextAlive gc.node.alive (countLiveNeighbors grid r c) = gc.node.alive
  · simp [h]
  · simp [h, eq_comm]

/-- C1: the tick guard computes every cell's next state by the exact Game
of Life rule: the new state is alive iff the cell is alive with 2 or 3 live
neighbors, or dead with exactly 3 live neighbors; otherwise it is dead. -/
theorem tick_transition_rule (grid : Grid) (r c : Nat) (cell : GridCell) :
    nextAlive cell.node.alive (countLiveNeighbors grid r c) = true ↔
      ((cell.node.alive = true ∧
          (countLiveNeighbors grid r c = 2 ∨ countLiveNeighbors grid r c = 3)) ∨
       (cell.node.alive = false ∧ countLiveNeighbors grid r c = 3)) := by
  cases h : cell.node.alive <;> simp [nextAlive]

/-- C3: the diff list computed by the tick is exactly the cells whose new
state differs from the current one, each as (block key, child key, new
state); a diff entry exists precisely for a cell position whose computed
next state differs from its current state, and cells with unchanged state
contribute no entry. -/
theorem stepDiffs_exactly_changed (grid : Grid) :
    (stepDiffs grid =
      (enumCells grid).filterMap fun t =>
        if nextAlive t.2.2.node.alive (countLiveNeighbors grid t.1 t.2.1) ≠
            t.2.2.node.alive then
          some { blockKey := t.2.2.blockKey, childKey := t.2.2.node.key,
                 alive := nextAlive t.2.2.node.alive (countLiveNeighbors grid t.1 t.2.1) }
        else none) ∧
    ∀ d : Diff, d ∈ stepDiffs grid ↔
      ∃ r c row gc, grid.get? r = some row ∧ row.get? c = some gc ∧
        nextAlive gc.node.alive (countLiveNeighbors grid r c) ≠ gc.node.alive ∧
        d = { blockKey := gc.blockKey, childKey := gc.node.key,
              alive := nextAlive gc.node.alive (countLiveNeighbors grid r c) } := by
  constructor
  · rw [stepDiffs_eq_filterMap]
    simp only [cellUpdate_eq]
  · intro d
    simp only [mem_stepDiffs, cellUpdate_some_iff]

/-- C4: the tick guard is deterministic and synchronous: equal grids give
equal diff lists, and every emitted diff is computed, via `cellUpdate`, from
the pre-step grid itself (never from a partially updated grid). -/
theorem step_deterministic_pre_step (g1 g2 : Grid) (h : g1 = g2) :
    stepDiffs g1 = stepDiffs g2 ∧
    ∀ d ∈ stepDiffs g1, ∃ r c row gc,
      g1.get? r = some row ∧ row.get? c = some gc ∧
        cellUpdate g1 r c gc = some d := by
  subst h
  exact ⟨rfl, fun d hd => (mem_stepDiffs _ _).mp hd⟩

theorem step_deterministic_pre_step_witness :
    (([[⟨"b", "k", true⟩]] : Grid) = [[⟨"b", "k", true⟩]]) ∧
    (stepDiffs ([[⟨"b", "k", true⟩]] : Grid) = stepDiffs [[⟨"b", "k", true⟩]] ∧
     ∀ d ∈ stepDiffs ([[⟨"b", "k", true⟩]] : Grid), ∃ r c row gc,
       ([[⟨"b", "k", true⟩]] : Grid).get? r = some row ∧ row.get? c = some gc ∧
         cellUpdate [[⟨"b", "k", true⟩]] r c gc = some d) :=
  ⟨rfl, step_deterministic_pre_step [[⟨"b", "k", true⟩]] [[⟨"b", "k", true⟩]] rfl⟩

lemma stepRows_all_nil (grid : Grid) :
    ∀ (r0 : Nat) (rows : List (List GridCell)),
      (∀ row ∈ rows, row = ([] : List GridCell)) → stepRows grid r0 rows = [] := by
  intro r0 rows
  induction rows generalizing r0 with
  | nil => intro _; simp [stepRows]
  | cons row rest ih =>
    intro h
    have hrow : row = ([] : List GridCell) := h row (by simp)
    subst hrow
    simp only [stepRows, stepRow, List.nil_append]
    exact ih (r0 + 1) fun row' hrow' => h row' (by simp [hrow'])

/-- C7: the tick is total on degenerate input: a grid with zero rows, or
one whose rows all have zero cells, yields an empty diff list (and hence no
error and no raised action). -/
theorem step_degenerate_empty (g : Grid)
    (h : ∀ row ∈ g, row = ([] : List GridCell)) :
    stepDiffs g = [] :=
  stepRows_all_nil g 0 g h

theorem step_degenerate_empty_witness :
    (∀ row ∈ ([[], []] : Grid), row = ([] : List GridCell)) ∧
      stepDiffs ([[], []] : Grid) = [] :=
  ⟨by decide, step_degenerate_empty [[], []] (by decide)⟩

/-- The state visible to the tick guard's loop: the extracted grid (built
from the read-only snapshot) and the `actions` array it pushes to. The loop
body (lines 386-412) reads `grid` and appends to `actions`; this embedding
makes that state explicit. -/
structure TickState where
  grid : Grid
  actions : List Diff
deriving DecidableEq

/-- The tick guard's nested loops as explicit state passing: one iteration
per enumerated cell position, each reading the grid of the current state
and pushing at most one action. -/
def runTick : TickState → List (Nat × Nat × GridCell) → TickState
  | s, [] => s
  | s, t :: rest =>
    match cellUpdate s.grid t.1 t.2.1 t.2.2 with
    | some d => runTick { grid := s.grid, actions := s.actions ++ [d] } rest
    | none => runTick s rest

/-- Run the tick guard's loop over the whole grid, starting from the input
grid and an empty actions array. -/
def tickRun (grid : Grid) : TickState :=
  runTick { grid := grid, actions := [] } (enumCells grid)

lemma runTick_grid :
    ∀ (l : List (Nat × Nat × GridCell)) (s : TickState),
      (runTick s l).grid = s.grid := by
  intro l
  induction l with
  | nil => intro s; rfl
  | cons t rest ih =>
    intro s
    cases h : cellUpdate s.grid t.1 t.2.1 t.2.2 with
    | some d => simp only [runTick, h, ih]
    | none => simp only [runTick, h, ih]

lemma runTick_actions (g : Grid) :
    ∀ (l : List (Nat × Nat × GridCell)) (acc : List Diff),
      (runTick { grid := g, actions := acc } l).actions =
        acc ++ l.filterMap fun t => cellUpdate g t.1 t.2.1 t.2.2 := by
  intro l
  induction l with
  | nil => intro acc; simp [runTick]
  | cons t rest ih =>
    intro acc
    cases h : cellUpdate g t.1 t.2.1 t.2.2 with
    | some d =>
      simp only [runTick, h, ih, List.filterMap_cons, List.append_assoc,
        List.singleton_append]
    | none => simp only [runTick, h, ih, List.filterMap_cons]

/-- C8: the tick guard has no side effect on the grid: running its loop
leaves the grid component of the state (cell states, keys, shape) exactly
the input grid, while the actions it accumulates are the step's diff list;
applying them is left to the caller. -/
theorem tick_no_mutation (grid : Grid) :
    (tickRun grid).grid = grid ∧ (tickRun grid).actions = stepDiffs grid := by
  constructor
  · exact runTick_grid (enumCells grid) { grid := grid, actions := [] }
  · rw [tickRun, runTick_actions grid (enumCells grid) [], List.nil_append,
      stepDiffs_eq_filterMap]

/-- The worked example of the spec: a 3-row grid whose middle row is
`[dead, alive, alive]` and whose other rows are all dead. -/
def exampleGrid : Grid :=
  [[⟨"b0", "a0", false⟩, ⟨"b0", "a1", false⟩, ⟨"b0", "a2", false⟩],
   [⟨"b1", "m0", false⟩, ⟨"b1", "m1", true⟩, ⟨"b1", "m2", true⟩],
   [⟨"b2", "c0", false⟩, ⟨"b2", "c1", false⟩, ⟨"b2", "c2", false⟩]]

/-- C6: on the worked example (middle row `[dead, alive, alive]`, rows
above and below all dead), the step's diff sets exactly the two alive cells
to dead — each has only 1 live neighbor — and contains no other entry. -/
theorem worked_example_diff :
    stepDiffs exampleGrid = [⟨"b1", "m1", false⟩, ⟨"b1", "m2", false⟩] := by
  decide

/-- The `getCells` selector (lines 88-114): every cell of every text block,
flattened in document order, with its path. -/
def getCells (value : List Block) : List GridCell :=
  value.flatMap fun block =>
    match block with
    | .textBlock bkey children => cellEntries bkey children
    | .nonTextBlock _ => []

/-- The `child.set` actions raised by the `/reset/` input rule
(lines 187-209): one action per cell of `getCells`, setting
`alive: false`. -/
def resetActions (value : List Block) : List Diff :=
  (getCells value).map fun cell =>
    { blockKey := cell.blockKey, childKey := cell.node.key, alive := false }

/-- Modelled from the spec: applying raised `child.set` actions is the
editor's job and its implementation is not under src/; per the spec the
caller applies each diff to the cell addressed by its path (block key,
child key), replacing that cell's `alive` with the diff's value and
touching nothing else. -/
def applyDiffsDoc (value : List Block) (diffs : List Diff) : List Block :=
  value.map fun block =>
    match block with
    | .textBlock bkey children =>
      .textBlock bkey (children.map fun child =>
        match child with
        | .cell node =>
          match diffs.find? (fun d => d.blockKey == bkey && d.childKey == node.key) with
          | some d => .cell { key := node.key, alive := d.alive }
          | none => .cell node
        | .span k => .span k)
    | .nonTextBlock k => .nonTextBlock k

/-- The spec's `clear` result, expressed on the document: the same blocks,
same keys, same shape, every cell dead. -/
def allDead (value : List Block) : List Block :=
  value.map fun block =>
    match block with
    | .textBlock bkey children =>
      .textBlock bkey (children.map fun child =>
        match child with
        | .cell node => .cell { key := node.key, alive := false }
        | .span k => .span k)
    | .nonTextBlock k => .nonTextBlock k

lemma resetActions_alive_false (value : List Block) :
    ∀ d ∈ resetActions value, d.alive = false := by
  intro d hd
  rw [resetActions, List.mem_map] at hd
  obtain ⟨cell, _, rfl⟩ := hd
  rfl

lemma mem_getCells_of_mem (value : List Block) (bkey : String)
    (children : List Child) (node : CellInlineObject)
    (hb : Block.textBlock bkey children ∈ value)
    (hc : Child.cell node ∈ children) :
    ({ blockKey := bkey, node := node } : GridCell) ∈ getCells value := by
  have h1 : ({ blockKey := bkey, node := node } : GridCell) ∈ cellEntries bkey children :=
    List.mem_filterMap.mpr ⟨Child.cell node, hc, rfl⟩
  exact List.mem_flatMap.mpr ⟨Block.textBlock bkey children, hb, h1⟩

lemma resetActions_covers (value : List Block) (bkey : String)
    (children : List Child) (node : CellInlineObject)
    (hb : Block.textBlock bkey children ∈ value)
    (hc : Child.cell node ∈ children) :
    ({ blockKey := bkey, childKey := node.key, alive := false } : Diff) ∈
      resetActions value := by
  rw [resetActions, List.mem_map]
  exact ⟨{ blockKey := bkey, node := node }, mem_getCells_of_mem value bkey children node hb hc, rfl⟩

lemma applyDiffs_reset_eq_allDead (value : List Block) :
    applyDiffsDoc value (resetActions value) = allDead value := by
  rw [applyDiffsDoc, allDead]
  apply List.map_congr_left
  intro b hb
  cases b with
  | nonTextBlock k => rfl
  | textBlock bkey children =>
    simp only [Block.textBlock.injEq, true_and]
    apply List.map_congr_left
    intro child hchild
    cases child with
    | span k => rfl
    | cell node =>
      have hd := resetActions_covers value bkey children node hb hchild
      have hsome : ((resetActions value).find?
          (fun d => d.blockKey == bkey && d.childKey == node.key)).isSome := by
        rw [List.find?_isSome]
        exact ⟨_, hd, by simp⟩
      cases hfind : (resetActions value).find?
          (fun d => d.blockKey == bkey && d.childKey == node.key) with
      | none => rw [hfind] at hsome; simp at hsome
      | some d' =>
        have hfalse : d'.alive = false :=
          resetActions_alive_false value d' (List.mem_of_find?_eq_some hfind)
        simp [hfind, hfalse]

lemma getCells_allDead (value : List Block) :
    ∀ gc ∈ getCells (allDead value), gc.node.alive = false := by
  intro gc hgc
  rw [getCells, List.mem_flatMap] at hgc
  obtain ⟨b, hb, hgc⟩ := hgc
  rw [allDead, List.mem_map] at hb
  obtain ⟨b0, _, rfl⟩ := hb
  cases b0 with
  | nonTextBlock k => simp at hgc
  | textBlock bkey children =>
    have hgc' : gc ∈ cellEntries bkey (children.map fun child =>
        match child with
        | Child.cell node => Child.cell { key := node.key, alive := false }
        | Child.span k => Child.span k) := hgc
    rw [cellEntries, List.mem_filterMap] at hgc'
    obtain ⟨child, hchild, hchild2⟩ := hgc'
    rw [List.mem_map] at hchild
    obtain ⟨child0, _, rfl⟩ := hchild
    cases child0 with
    | span k => simp at hchild2
    | cell node =>
      simp only [Option.some.injEq] at hchild2
      rw [← hchild2]

/-- C9: the `/reset/` input rule sets every cell dead while keeping the
document's shape and every key: applying its `child.set` actions yields
exactly the all-dead document, and every cell of the result has
`alive = false`. -/
theorem reset_all_cells_dead (value : List Block) :
    applyDiffsDoc value (resetActions value) = allDead value ∧
    ∀ gc ∈ getCells (applyDiffsDoc value (resetActions value)),
      gc.node.alive = false := by
  refine ⟨applyDiffs_reset_eq_allDead value, ?_⟩
  rw [applyDiffs_reset_eq_allDead value]
  exact getCells_allDead value

/-- C10: grid extraction omits non-text blocks, non-cell children, and
rows with zero cells entirely — deleting a non-text block or a cell-less
text block anywhere leaves the extracted grid unchanged (so cell rows
separated only by such blocks are vertically adjacent, and a cell's grid
row index can differ from its block index) — and every extracted row is
nonempty. -/
theorem extractGrid_omits_non_cells :
    (∀ (v1 v2 : List Block) (k : String),
      extractGrid (v1 ++ Block.nonTextBlock k :: v2) = extractGrid (v1 ++ v2)) ∧
    (∀ (v1 v2 : List Block) (k : String) (children : List Child),
      cellEntries k children = [] →
        extractGrid (v1 ++ Block.textBlock k children :: v2) =
          extractGrid (v1 ++ v2)) ∧
    (∀ (value : List Block) (row : List GridCell),
      row ∈ extractGrid value → row ≠ []) := by
  refine ⟨?_, ?_, ?_⟩
  · intro v1 v2 k
    simp [extractGrid, List.filterMap_append, List.filterMap_cons]
  · intro v1 v2 k children h
    simp [extractGrid, List.filterMap_append, List.filterMap_cons, h]
  · intro value row hrow
    rw [extractGrid, List.mem_filterMap] at hrow
    obtain ⟨b, _, hb⟩ := hrow
    cases b with
    | nonTextBlock k => simp at hb
    | textBlock k children =>
      have hb' : (if (cellEntries k children).length > 0
          then some (cellEntries k children) else none) = some row := hb
      by_cases h : (cellEntries k children).length > 0
      · rw [if_pos h] at hb'
        have hrow' : cellEntries k children = row := by
          injection hb'
        rw [← hrow']
        intro hnil
        rw [hnil] at h
        simp at h
      · rw [if_neg h] at hb'
        simp at hb'

theorem extractGrid_omits_non_cells_witness :
    (extractGrid [Block.nonTextBlock "x",
        Block.textBlock "a" [Child.cell ⟨"k", true⟩]] =
      extractGrid [Block.textBlock "a" [Child.cell ⟨"k", true⟩]]) ∧
    (cellEntries "s" [Child.span "sp"] = [] ∧
      extractGrid [Block.textBlock "s" [Child.span "sp"],
          Block.textBlock "a" [Child.cell ⟨"k", true⟩]] =
        extractGrid [Block.textBlock "a" [Child.cell ⟨"k", true⟩]]) ∧
    (([⟨"a", "k", true⟩] : List GridCell) ∈
        extractGrid [Block.nonTextBlock "x",
          Block.textBlock "a" [Child.cell ⟨"k", true⟩]] ∧
      ([⟨"a", "k", true⟩] : List GridCell) ≠ []) :=
  ⟨extractGrid_omits_non_cells.1 [] [Block.textBlock "a" [Child.cell ⟨"k", true⟩]] "x",
   ⟨by decide,
    extractGrid_omits_non_cells.2.1 []
      [Block.textBlock "a" [Child.cell ⟨"k", true⟩]] "s" [Child.span "sp"] (by decide)⟩,
   ⟨by decide,
    extractGrid_omits_non_cells.2.2
      [Block.nonTextBlock "x", Block.textBlock "a" [Child.cell ⟨"k", true⟩]]
      [⟨"a", "k", true⟩] (by decide)⟩⟩

/-- Modelled from the spec: the caller (the editor, whose `child.set`
implementation is not under src/) applies the step's diffs to the grid;
each diff replaces the `alive` state of the cell addressed by its path
(block key, child key) and touches nothing else. -/
def applyDiffs (grid : Grid) (diffs : List Diff) : Grid :=
  grid.map fun row => row.map fun gc =>
    match diffs.find? (fun d => d.blockKey == gc.blockKey && d.childKey == gc.node.key) with
    | some d => { blockKey := gc.blockKey, node := { key := gc.node.key, alive := d.alive } }
    | none => gc

/-! The blinker oscillation claim is settled parametrically below: for
every rectangular grid of any size holding the horizontal 3-cell live row
anywhere with one dead row above and below and one dead column to its
right, two step-and-apply rounds restore the original grid. -/

/-- The cell stored at row r, column c of a grid, when both indices are in
range. -/
def cellAt (g : Grid) (r c : Nat) : Option GridCell :=
  (g.get? r).bind fun row => row.get? c

/-- No two positions of the grid carry the same (block key, child key)
path; true of editor documents, whose keys come from `keyGenerator`. -/
def keysDistinct (g : Grid) : Prop :=
  ∀ r1 c1 r2 c2 gc1 gc2,
    cellAt g r1 c1 = some gc1 → cellAt g r2 c2 = some gc2 →
    gc1.blockKey = gc2.blockKey → gc1.node.key = gc2.node.key →
    r1 = r2 ∧ c1 = c2

/-- A block key for row i, distinct for distinct rows. -/
def rowKey (i : Nat) : String := String.mk (List.replicate (i + 1) 'r')

/-- A child key for column j, distinct for distinct columns. -/
def colKey (j : Nat) : String := String.mk (List.replicate (j + 1) 'c')

/-- A rectangular R-by-W grid whose cell at (i, j) is alive iff `f i j`,
with position-derived distinct keys. -/
def mkGrid (R W : Nat) (f : Nat → Nat → Bool) : Grid :=
  (List.range R).map fun i =>
    (List.range W).map fun j =>
      { blockKey := rowKey i, node := { key := colKey j, alive := f i j } }

lemma rowKey_inj {i1 i2 : Nat} (h : rowKey i1 = rowKey i2) : i1 = i2 := by
  have h2 := congrArg (fun s => s.data.length) h
  simp only [rowKey, List.length_replicate] at h2
  omega

lemma colKey_inj {j1 j2 : Nat} (h : colKey j1 = colKey j2) : j1 = j2 := by
  have h2 := congrArg (fun s => s.data.length) h
  simp only [colKey, List.length_replicate] at h2
  omega

lemma mkGrid_get? (R W : Nat) (f : Nat → Nat → Bool) (i : Nat) :
    (mkGrid R W f).get? i =
      if i < R then
        some ((List.range W).map fun j =>
          ({ blockKey := rowKey i, node := { key := colKey j, alive := f i j } } : GridCell))
      else none := by
  unfold mkGrid
  by_cases h : i < R
  · rw [if_pos h, List.get?_map, List.get?_range h]
    rfl
  · rw [if_neg h, List.get?_map, List.get?_eq_none.mpr (by simp; omega)]
    rfl

lemma cellAt_mkGrid (R W : Nat) (f : Nat → Nat → Bool) (r c : Nat) :
    cellAt (mkGrid R W f) r c =
      if r < R ∧ c < W then
        some { blockKey := rowKey r, node := { key := colKey c, alive := f r c } }
      else none := by
  unfold cellAt
  rw [mkGrid_get?]
  by_cases hr : r < R
  · rw [if_pos hr]
    by_cases hc : c < W
    · rw [Option.some_bind, List.get?_map, List.get?_range hc,
        if_pos ⟨hr, hc⟩]
      rfl
    · rw [Option.some_bind, List.get?_map,
        List.get?_eq_none.mpr (by simp; omega), if_neg (by tauto)]
      rfl
  · rw [if_neg hr, Option.none_bind, if_neg (by tauto)]

lemma boundedAlive_eq_cellAt (g : Grid) (p q : Int) :
    boundedAlive g p q =
      if 0 ≤ p ∧ 0 ≤ q then
        (match cellAt g p.toNat q.toNat with
         | some gc => gc.node.alive
         | none => false)
      else false := by
  unfold boundedAlive cellAt
  by_cases h1 : (0 ≤ p)
  · by_cases h2 : p < (g.length : Int)
    · cases hrow : g.get? p.toNat with
      | none =>
        exfalso
        rw [List.get?_eq_none] at hrow
        omega
      | some row =>
        rw [Option.some_bind]
        by_cases h3 : (0 ≤ q)
        · by_cases h4 : q < (row.length : Int)
          · cases hgc : row.get? q.toNat with
            | none =>
              exfalso
              rw [List.get?_eq_none] at hgc
              omega
            | some gc =>
              have h5 : q.toNat < row.length := by omega
              have h6 : row[q.toNat]? = some gc := by
                rw [← List.get?_eq_getElem?]
                exact hgc
              rw [List.getElem?_eq_getElem h5] at h6
              have h7 : row[q.toNat] = gc := by injection h6
              simp [h1, h2, h3, h4, h7]
          · have hgc : row.get? q.toNat = none := by
              rw [List.get?_eq_none]
              omega
            rw [hgc]
            simp [h1, h2, h3, h4]
        · simp [h1, h2, h3]
    · have hrow : g.get? p.toNat = none := by
        rw [List.get?_eq_none]
        omega
      rw [hrow, Option.none_bind]
      simp [h1, h2]
  · simp [h1]

/-- The bounds-checked read on a rectangular `mkGrid`: inside `[0,R) × [0,W)`
it is `f`, outside it is false. -/
def nb (R W : Nat) (f : Nat → Nat → Bool) (p q : Int) : Bool :=
  decide (0 ≤ p ∧ p < (R : Int) ∧ 0 ≤ q ∧ q < (W : Int)) && f p.toNat q.toNat

lemma boundedAlive_mkGrid (R W : Nat) (f : Nat → Nat → Bool) (p q : Int) :
    boundedAlive (mkGrid R W f) p q = nb R W f p q := by
  rw [boundedAlive_eq_cellAt, nb]
  by_cases h1 : (0 ≤ p)
  · by_cases h3 : (0 ≤ q)
    · rw [if_pos ⟨h1, h3⟩, cellAt_mkGrid]
      by_cases h2 : p.toNat < R
      · by_cases h4 : q.toNat < W
        · have hb : 0 ≤ p ∧ p < (R : Int) ∧ 0 ≤ q ∧ q < (W : Int) := by
            refine ⟨h1, ?_, h3, ?_⟩ <;> omega
          simp [h2, h4, hb]
        · have hb : ¬(0 ≤ p ∧ p < (R : Int) ∧ 0 ≤ q ∧ q < (W : Int)) := by
            intro hcon
            omega
          simp [h2, h4, hb]
      · have hb : ¬(0 ≤ p ∧ p < (R : Int) ∧ 0 ≤ q ∧ q < (W : Int)) := by
          intro hcon
          omega
        simp [h2, hb]
    · have hb : ¬(0 ≤ p ∧ p < (R : Int) ∧ 0 ≤ q ∧ q < (W : Int)) := by
        intro hcon
        omega
      simp [h1, h3, hb]
  · have hb : ¬(0 ≤ p ∧ p < (R : Int) ∧ 0 ≤ q ∧ q < (W : Int)) := by
      intro hcon
      omega
    simp [h1, hb]

/-- One row of the synchronous next generation: every cell keeps its keys
and takes `nextAlive` of its state and its neighbor count in the pre-step
grid. -/
def nextRow (g : Grid) (rI : Nat) : Nat → List GridCell → List GridCell
  | _, [] => []
  | cI, gc :: rest =>
    { blockKey := gc.blockKey,
      node := { key := gc.node.key,
                alive := nextAlive gc.node.alive (countLiveNeighbors g rI cI) } } ::
      nextRow g rI (cI + 1) rest

/-- All rows of the synchronous next generation. -/
def nextRows (g : Grid) : Nat → List (List GridCell) → Grid
  | _, [] => []
  | rI, row :: rest => nextRow g rI 0 row :: nextRows g (rI + 1) rest

/-- The synchronous next generation of a grid: same shape, same keys, every
state replaced by its Game of Life successor. -/
def nextGrid (g : Grid) : Grid := nextRows g 0 g

lemma nextRow_get? (g : Grid) (rI : Nat) :
    ∀ (c0 : Nat) (row : List GridCell) (k : Nat),
      (nextRow g rI c0 row).get? k =
        (row.get? k).map fun gc =>
          { blockKey := gc.blockKey,
            node := { key := gc.node.key,
                      alive := nextAlive gc.node.alive (countLiveNeighbors g rI (c0 + k)) } } := by
  intro c0 row
  induction row generalizing c0 with
  | nil => intro k; simp [nextRow]
  | cons gc rest ih =>
    intro k
    cases k with
    | zero => simp [nextRow]
    | succ k' =>
      have harith : c0 + (k' + 1) = c0 + 1 + k' := by omega
      simp only [nextRow, List.get?, ih (c0 + 1) k', harith]

lemma nextRows_get? (g : Grid) :
    ∀ (r0 : Nat) (rows : List (List GridCell)) (k : Nat),
      (nextRows g r0 rows).get? k =
        (rows.get? k).map fun row => nextRow g (r0 + k) 0 row := by
  intro r0 rows
  induction rows generalizing r0 with
  | nil => intro k; simp [nextRows]
  | cons row rest ih =>
    intro k
    cases k with
    | zero => simp [nextRows]
    | succ k' =>
      have harith : r0 + (k' + 1) = r0 + 1 + k' := by omega
      simp only [nextRows, List.get?, ih (r0 + 1) k', harith]

/-- The per-cell effect of applying a diff list: the cell addressed by the
first matching diff takes that diff's state; other cells are untouched. -/
def cellApply (diffs : List Diff) (gc : GridCell) : GridCell :=
  match diffs.find? (fun d => d.blockKey == gc.blockKey && d.childKey == gc.node.key) with
  | some d => { blockKey := gc.blockKey, node := { key := gc.node.key, alive := d.alive } }
  | none => gc

lemma applyDiffs_eq_map (g : Grid) (diffs : List Diff) :
    applyDiffs g diffs = g.map fun row => row.map (cellApply diffs) := rfl

lemma cellAt_some_parts (g : Grid) (r c : Nat) (gc : GridCell)
    (hgc : cellAt g r c = some gc) :
    ∃ row, g.get? r = some row ∧ row.get? c = some gc := by
  unfold cellAt at hgc
  cases hr : g.get? r with
  | none =>
    rw [hr, Option.none_bind] at hgc
    exact absurd hgc (by simp)
  | some row =>
    rw [hr, Option.some_bind] at hgc
    exact ⟨row, rfl, hgc⟩

lemma cellApply_step_eq_next (g : Grid) (hk : keysDistinct g) (r c : Nat)
    (gc : GridCell) (hgc : cellAt g r c = some gc) :
    cellApply (stepDiffs g) gc =
      { blockKey := gc.blockKey,
        node := { key := gc.node.key,
                  alive := nextAlive gc.node.alive (countLiveNeighbors g r c) } } := by
  obtain ⟨row, hrow, hcc⟩ := cellAt_some_parts g r c gc hgc
  unfold cellApply
  cases hfind : (stepDiffs g).find?
      (fun d => d.blockKey == gc.blockKey && d.childKey == gc.node.key) with
  | some d =>
    have hdmem := List.mem_of_find?_eq_some hfind
    have hdp := List.find?_some hfind
    rw [Bool.and_eq_true, beq_iff_eq, beq_iff_eq] at hdp
    obtain ⟨hb, hc⟩ := hdp
    rw [mem_stepDiffs] at hdmem
    obtain ⟨r2, c2, row2, gc2, hr2, hc2, hupd⟩ := hdmem
    rw [cellUpdate_some_iff] at hupd
    obtain ⟨hne, rfl⟩ := hupd
    have hcell2 : cellAt g r2 c2 = some gc2 := by
      unfold cellAt
      rw [hr2, Option.some_bind]
      exact hc2
    obtain ⟨hr2r, hc2c⟩ := hk r2 c2 r c gc2 gc hcell2 hgc hb hc
    subst hr2r
    subst hc2c
    have hgc2 : gc2 = gc := by
      rw [hgc] at hcell2
      injection hcell2 with h9
      exact h9.symm
    subst hgc2
    rfl
  | none =>
    cases hupd : cellUpdate g r c gc with
    | some d0 =>
      exfalso
      have hd0mem : d0 ∈ stepDiffs g :=
        (mem_stepDiffs g d0).mpr ⟨r, c, row, gc, hrow, hcc, hupd⟩
      have hnp := List.find?_eq_none.mp hfind d0 hd0mem
      rw [cellUpdate_some_iff] at hupd
      obtain ⟨hne, rfl⟩ := hupd
      simp at hnp
    | none =>
      have hsame : nextAlive gc.node.alive (countLiveNeighbors g r c) = gc.node.alive := by
        by_contra hcon
        rw [cellUpdate_eq, if_pos hcon] at hupd
        exact absurd hupd (by simp)
      rw [hsame]
  

lemma applyDiffs_step_eq_nextGrid (g : Grid) (hk : keysDistinct g) :
    applyDiffs g (stepDiffs g) = nextGrid g := by
  rw [applyDiffs_eq_map, nextGrid]
  apply List.ext_get?
  intro k
  rw [List.get?_map, nextRows_get? g 0 g k]
  cases hrowk : g.get? k with
  | none => rfl
  | some row =>
    simp only [Option.map]
    refine congrArg some ?_
    apply List.ext_get?
    intro m
    rw [List.get?_map, nextRow_get? g (0 + k) 0 row m]
    cases hgcm : row.get? m with
    | none => rfl
    | some gc =>
      simp only [Option.map]
      refine congrArg some ?_
      have hcell : cellAt g k m = some gc := by
        unfold cellAt
        rw [hrowk, Option.some_bind]
        exact hgcm
      have hnext := cellApply_step_eq_next g hk k m gc hcell
      simp only [Nat.zero_add]
      exact hnext

lemma keysDistinct_mkGrid (R W : Nat) (f : Nat → Nat → Bool) :
    keysDistinct (mkGrid R W f) := by
  intro r1 c1 r2 c2 gc1 gc2 h1 h2 hb hc
  rw [cellAt_mkGrid] at h1 h2
  by_cases hcond1 : r1 < R ∧ c1 < W
  · rw [if_pos hcond1] at h1
    by_cases hcond2 : r2 < R ∧ c2 < W
    · rw [if_pos hcond2] at h2
      injection h1 with h1e
      injection h2 with h2e
      subst h1e
      subst h2e
      exact ⟨rowKey_inj hb, colKey_inj hc⟩
    · rw [if_neg hcond2] at h2
      exact absurd h2 (by simp)
  · rw [if_neg hcond1] at h1
    exact absurd h1 (by simp)

lemma nextGrid_mkGrid (R W : Nat) (f : Nat → Nat → Bool) :
    nextGrid (mkGrid R W f) =
      mkGrid R W (fun i j =>
        nextAlive (f i j) (countLiveNeighbors (mkGrid R W f) i j)) := by
  rw [nextGrid]
  apply List.ext_get?
  intro k
  rw [nextRows_get? _ 0 _ k, mkGrid_get?, mkGrid_get?]
  by_cases hkR : k < R
  · rw [if_pos hkR, if_pos hkR]
    simp only [Option.map]
    refine congrArg some ?_
    apply List.ext_get?
    intro m
    rw [nextRow_get?, List.get?_map, List.get?_map]
    by_cases hmW : m < W
    · rw [List.get?_range hmW]
      simp only [Option.map, Nat.zero_add]
    · rw [List.get?_eq_none.mpr (by simp; omega)]
      rfl
  · rw [if_neg hkR, if_neg hkR]
    rfl

lemma mkGrid_congr (R W : Nat) (f g : Nat → Nat → Bool)
    (h : ∀ i j, i < R → j < W → f i j = g i j) :
    mkGrid R W f = mkGrid R W g := by
  unfold mkGrid
  apply List.map_congr_left
  intro i hi
  rw [List.mem_range] at hi
  apply List.map_congr_left
  intro j hj
  rw [List.mem_range] at hj
  rw [h i j hi hj]

lemma cnt_mkGrid (R W : Nat) (f : Nat → Nat → Bool) (i j : Nat) :
    countLiveNeighbors (mkGrid R W f) i j =
      (if nb R W f ((i : Int) + -1) ((j : Int) + -1) = true then 1 else 0) +
      ((if nb R W f ((i : Int) + -1) (j : Int) = true then 1 else 0) +
       ((if nb R W f ((i : Int) + -1) ((j : Int) + 1) = true then 1 else 0) +
        ((if nb R W f (i : Int) ((j : Int) + -1) = true then 1 else 0) +
         ((if nb R W f (i : Int) ((j : Int) + 1) = true then 1 else 0) +
          ((if nb R W f ((i : Int) + 1) ((j : Int) + -1) = true then 1 else 0) +
           ((if nb R W f ((i : Int) + 1) (j : Int) = true then 1 else 0) +
            (if nb R W f ((i : Int) + 1) ((j : Int) + 1) = true then 1 else 0))))))) := by
  rw [countLiveNeighbors, foldl_count_filter (mkGrid R W f) i j neighborOffsets 0]
  have hoff2 : neighborOffsets =
      [((-1 : Int), (-1 : Int)), (-1, 0), (-1, 1),
       (0, -1), (0, 0), (0, 1),
       (1, -1), (1, 0), (1, 1)] := rfl
  have hA : ((-1 : Int) == 0) = false := rfl
  have hB : ((0 : Int) == 0) = true := rfl
  have hC : ((1 : Int) == 0) = false := rfl
  rw [hoff2]
  simp only [length_filter_cons, List.filter_nil, List.length_nil, hA, hB, hC,
    Bool.and_self, Bool.and_true, Bool.true_and, Bool.false_and,
    Bool.and_false, Bool.not_true, Bool.not_false, boundedAlive_mkGrid,
    Bool.false_eq_true, if_false, Nat.zero_add, Nat.add_zero, Int.add_zero]

/-- The horizontal blinker state: alive exactly at (r, c), (r, c+1),
(r, c+2). -/
def blinkAlive (r c : Nat) (i j : Nat) : Bool :=
  decide (i = r ∧ (j = c ∨ j = c + 1 ∨ j = c + 2))

/-- The vertical blinker state: alive exactly at (r-1, c+1), (r, c+1),
(r+1, c+1). -/
def vertAlive (r c : Nat) (i j : Nat) : Bool :=
  decide (j = c + 1 ∧ (i + 1 = r ∨ i = r ∨ i = r + 1))

lemma beq_or_decide (n : Nat) : (n == 2 || n == 3) = decide (n = 2 ∨ n = 3) := by
  by_cases h2 : n = 2
  · simp [h2]
  · by_cases h3 : n = 3
    · simp [h2, h3]
    · simp [h2, h3]

lemma beq_decide_three (n : Nat) : (n == 3) = decide (n = 3) := by
  by_cases h3 : n = 3 <;> simp [h3]

lemma nextAlive_eq_decide (P Q : Prop) [Decidable P] [Decidable Q] (n : Nat)
    (h1 : P → (Q ↔ (n = 2 ∨ n = 3))) (h2 : ¬P → (Q ↔ n = 3)) :
    nextAlive (decide P) n = decide Q := by
  unfold nextAlive
  by_cases hP : P
  · rw [if_pos (decide_eq_true hP), beq_or_decide]
    exact decide_eq_decide.mpr ((h1 hP).symm)
  · rw [if_neg (fun h => hP (of_decide_eq_true h)), beq_decide_three]
    exact decide_eq_decide.mpr ((h2 hP).symm)

lemma nb_mm (R W : Nat) (f : Nat → Nat → Bool) (i j : Nat)
    (hi : i < R) (hj : j < W) :
    nb R W f ((i : Int) + -1) ((j : Int) + -1) =
      (decide (1 ≤ i ∧ 1 ≤ j) && f (i - 1) (j - 1)) := by
  have ha1 : ((i : Int) + -1).toNat = i - 1 := by omega
  have ha2 : ((j : Int) + -1).toNat = j - 1 := by omega
  rw [nb, ha1, ha2]
  congr 1
  rw [decide_eq_decide]
  omega

lemma nb_m0 (R W : Nat) (f : Nat → Nat → Bool) (i j : Nat)
    (hi : i < R) (hj : j < W) :
    nb R W f ((i : Int) + -1) (j : Int) =
      (decide (1 ≤ i) && f (i - 1) j) := by
  have ha1 : ((i : Int) + -1).toNat = i - 1 := by omega
  have ha2 : ((j : Int)).toNat = j := by omega
  rw [nb, ha1, ha2]
  congr 1
  rw [decide_eq_decide]
  omega

lemma nb_mp (R W : Nat) (f : Nat → Nat → Bool) (i j : Nat)
    (hi : i < R) (hj : j < W) :
    nb R W f ((i : Int) + -1) ((j : Int) + 1) =
      (decide (1 ≤ i ∧ j + 1 < W) && f (i - 1) (j + 1)) := by
  have ha1 : ((i : Int) + -1).toNat = i - 1 := by omega
  have ha2 : ((j : Int) + 1).toNat = j + 1 := by omega
  rw [nb, ha1, ha2]
  congr 1
  rw [decide_eq_decide]
  omega

lemma nb_0m (R W : Nat) (f : Nat → Nat → Bool) (i j : Nat)
    (hi : i < R) (hj : j < W) :
    nb R W f (i : Int) ((j : Int) + -1) =
      (decide (1 ≤ j) && f i (j - 1)) := by
  have ha1 : ((i : Int)).toNat = i := by omega
  have ha2 : ((j : Int) + -1).toNat = j - 1 := by omega
  rw [nb, ha1, ha2]
  congr 1
  rw [decide_eq_decide]
  omega

lemma nb_0p (R W : Nat) (f : Nat → Nat → Bool) (i j : Nat)
    (hi : i < R) (hj : j < W) :
    nb R W f (i : Int) ((j : Int) + 1) =
      (decide (j + 1 < W) && f i (j + 1)) := by
  have ha1 : ((i : Int)).toNat = i := by omega
  have ha2 : ((j : Int) + 1).toNat = j + 1 := by omega
  rw [nb, ha1, ha2]
  congr 1
  rw [decide_eq_decide]
  omega

lemma nb_pm (R W : Nat) (f : Nat → Nat → Bool) (i j : Nat)
    (hi : i < R) (hj : j < W) :
    nb R W f ((i : Int) + 1) ((j : Int) + -1) =
      (decide (i + 1 < R ∧ 1 ≤ j) && f (i + 1) (j - 1)) := by
  have ha1 : ((i : Int) + 1).toNat = i + 1 := by omega
  have ha2 : ((j : Int) + -1).toNat = j - 1 := by omega
  rw [nb, ha1, ha2]
  congr 1
  rw [decide_eq_decide]
  omega

lemma nb_p0 (R W : Nat) (f : Nat → Nat → Bool) (i j : Nat)
    (hi : i < R) (hj : j < W) :
    nb R W f ((i : Int) + 1) (j : Int) =
      (decide (i + 1 < R) && f (i + 1) j) := by
  have ha1 : ((i : Int) + 1).toNat = i + 1 := by omega
  have ha2 : ((j : Int)).toNat = j := by omega
  rw [nb, ha1, ha2]
  congr 1
  rw [decide_eq_decide]
  omega

lemma nb_pp (R W : Nat) (f : Nat → Nat → Bool) (i j : Nat)
    (hi : i < R) (hj : j < W) :
    nb R W f ((i : Int) + 1) ((j : Int) + 1) =
      (decide (i + 1 < R ∧ j + 1 < W) && f (i + 1) (j + 1)) := by
  have ha1 : ((i : Int) + 1).toNat = i + 1 := by omega
  have ha2 : ((j : Int) + 1).toNat = j + 1 := by omega
  rw [nb, ha1, ha2]
  congr 1
  rw [decide_eq_decide]
  omega

lemma ind_decide (A B : Prop) [Decidable A] [Decidable B] :
    (if (decide A && decide B) = true then (1 : Nat) else 0) =
      if A ∧ B then (1 : Nat) else 0 := by
  by_cases hA : A <;> by_cases hB : B <;> simp [hA, hB]

set_option maxHeartbeats 4000000 in
lemma blink_step (R W r c : Nat) (hr1 : 1 ≤ r) (hr2 : r + 1 < R)
    (hc2 : c + 2 < W) (i j : Nat) (hi : i < R) (hj : j < W) :
    nextAlive (blinkAlive r c i j)
        (countLiveNeighbors (mkGrid R W (blinkAlive r c)) i j) =
      vertAlive r c i j := by
  rw [cnt_mkGrid, nb_mm R W _ i j hi hj, nb_m0 R W _ i j hi hj,
    nb_mp R W _ i j hi hj, nb_0m R W _ i j hi hj, nb_0p R W _ i j hi hj,
    nb_pm R W _ i j hi hj, nb_p0 R W _ i j hi hj, nb_pp R W _ i j hi hj]
  simp only [blinkAlive, vertAlive, ind_decide]
  refine nextAlive_eq_decide _ _ _ ?_ ?_ <;> intro hp <;> split_ifs <;> omega

set_option maxHeartbeats 4000000 in
lemma vert_step (R W r c : Nat) (hr1 : 1 ≤ r) (hr2 : r + 1 < R)
    (hc2 : c + 2 < W) (i j : Nat) (hi : i < R) (hj : j < W) :
    nextAlive (vertAlive r c i j)
        (countLiveNeighbors (mkGrid R W (vertAlive r c)) i j) =
      blinkAlive r c i j := by
  rw [cnt_mkGrid, nb_mm R W _ i j hi hj, nb_m0 R W _ i j hi hj,
    nb_mp R W _ i j hi hj, nb_0m R W _ i j hi hj, nb_0p R W _ i j hi hj,
    nb_pm R W _ i j hi hj, nb_p0 R W _ i j hi hj, nb_pp R W _ i j hi hj]
  simp only [blinkAlive, vertAlive, ind_decide]
  refine nextAlive_eq_decide _ _ _ ?_ ?_ <;> intro hp <;> split_ifs <;> omega

/-- C5: blinker oscillation: for every rectangular grid (any size, distinct
position-derived keys) holding a horizontal row of 3 consecutive live cells
with all other cells dead and dead margin around the pattern (at least one
row above, one row below, and one column to its right), stepping and
applying the diffs twice in sequence returns the grid to its original
state: the two diff lists compose to an empty net effect. -/
theorem blinker_period_two (R W r c : Nat) (hr1 : 1 ≤ r) (hr2 : r + 1 < R)
    (hc2 : c + 2 < W) :
    applyDiffs (applyDiffs (mkGrid R W (blinkAlive r c))
        (stepDiffs (mkGrid R W (blinkAlive r c))))
      (stepDiffs (applyDiffs (mkGrid R W (blinkAlive r c))
        (stepDiffs (mkGrid R W (blinkAlive r c))))) =
      mkGrid R W (blinkAlive r c) := by
  have hb1 : applyDiffs (mkGrid R W (blinkAlive r c))
      (stepDiffs (mkGrid R W (blinkAlive r c))) = mkGrid R W (vertAlive r c) := by
    rw [applyDiffs_step_eq_nextGrid _ (keysDistinct_mkGrid R W _), nextGrid_mkGrid]
    exact mkGrid_congr R W _ _ fun i j hi hj =>
      blink_step R W r c hr1 hr2 hc2 i j hi hj
  rw [hb1, applyDiffs_step_eq_nextGrid _ (keysDistinct_mkGrid R W _),
    nextGrid_mkGrid]
  exact mkGrid_congr R W _ _ fun i j hi hj =>
    vert_step R W r c hr1 hr2 hc2 i j hi hj

theorem blinker_period_two_witness :
    (1 ≤ 2 ∧ 2 + 1 < 5 ∧ 1 + 2 < 5) ∧
    applyDiffs (applyDiffs (mkGrid 5 5 (blinkAlive 2 1))
        (stepDiffs (mkGrid 5 5 (blinkAlive 2 1))))
      (stepDiffs (applyDiffs (mkGrid 5 5 (blinkAlive 2 1))
        (stepDiffs (mkGrid 5 5 (blinkAlive 2 1))))) =
      mkGrid 5 5 (blinkAlive 2 1) :=
  ⟨⟨by decide, by decide, by decide⟩,
   blinker_period_two 5 5 2 1 (by decide) (by decide) (by decide)⟩
